import Mathlib

/-!
Shallow embedding of the hybrid RAG FAQ backend (retrieval, variant
generation and question answering services) and proofs of the spec's
claims about it.

Conventions of the embedding:
* Python floats (similarities, temperatures, elapsed times) are modelled
  as rationals.
* A call that may raise is modelled as `Except Unit`; a `try/except`
  block becomes a `match` on that value.
* External collaborators (the LLM chains, the embedding provider, the
  database) are oracle parameters: the theorems quantify over every
  behaviour of those oracles.
-/

/-! ## Python string primitives used by the variant service -/

/-- Python's regex class over the ASCII whitespace characters matched by
a whitespace pattern: space, tab, newline, carriage return, vertical tab
and form feed. -/
def pyIsSpace (c : Char) : Bool :=
  c == ' ' || c == '\t' || c == '\n' || c == '\r' || c == '\x0b' || c == '\x0c'

/-- The two quote characters stripped by the variant cleaner. -/
def isQuoteChar (c : Char) : Bool :=
  c == '\"' || c == '\''

/-- Replacing every maximal run of whitespace by a single space, tracked
with a flag that records whether the previous character belonged to a
run: the substitution of a single blank for each whitespace-run in the
cleaner. -/
def collapseAux : Bool → List Char → List Char
  | _, [] => []
  | prevSpace, c :: cs =>
    if pyIsSpace c then
      if prevSpace then collapseAux true cs else ' ' :: collapseAux true cs
    else c :: collapseAux false cs

/-- The whitespace-run collapse applied to a whole string. -/
def collapseWs (l : List Char) : List Char := collapseAux false l

/-- Dropping the characters satisfying `p` from both ends of a list, the
behaviour of Python's two-sided strip with a character class. -/
def stripEnds (p : Char → Bool) (l : List Char) : List Char :=
  ((l.dropWhile p).reverse.dropWhile p).reverse

/-- Python's plain strip: whitespace removed from both ends. -/
def pyStrip (l : List Char) : List Char := stripEnds pyIsSpace l

/-- Python's strip with the two quote characters. -/
def pyStripQuotes (l : List Char) : List Char := stripEnds isQuoteChar l

/-- Lower-casing a string character by character, Python's lower on the
ASCII inputs in scope. -/
def lowerStr (s : String) : String := String.mk (s.data.map Char.toLower)

/-- The cleaning applied to one raw variant inside the cleaner: collapse
whitespace runs, strip outer whitespace, then strip wrapping quotes. -/
def cleanOne (s : String) : String :=
  String.mk (pyStripQuotes (pyStrip (collapseWs s.data)))

/-! ## Variant service -/

namespace VariantGenerationService

/-- The loop of the variant cleaner: each raw variant is cleaned, skipped
when empty or already seen case-insensitively, and otherwise appended; the
loop stops as soon as the kept list reaches the expected count (the check
runs after the append, as in the source). -/
def cleanLoop (expected_count : Nat) :
    List String → List String → List String → List String
  | [], _, cleaned => cleaned
  | v :: rest, seen, cleaned =>
    let v' := cleanOne v
    if v' = "" ∨ lowerStr v' ∈ seen then
      cleanLoop expected_count rest seen cleaned
    else
      if expected_count ≤ (cleaned ++ [v']).length then cleaned ++ [v']
      else cleanLoop expected_count rest (lowerStr v' :: seen) (cleaned ++ [v'])

/-- Clean and deduplicate variant strings, keeping at most
`expected_count` of them. -/
def clean_variants (variants : List String) (expected_count : Nat) : List String :=
  cleanLoop expected_count variants [] []

/-- The JSON values the model's reply parses to. Numbers are rationals;
the claims in scope only evaluate string payloads. -/
inductive Json where
  | str (s : String)
  | num (q : ℚ)
  | bool (b : Bool)
  | null
  | arr (elems : List Json)
  | obj (fields : List (String × Json))

/-- Python's str() on a parsed JSON value; exact on strings, which is the
only payload the claims evaluate. -/
def pyStr : Json → String
  | .str s => s
  | .num q => toString q
  | .bool b => if b then "True" else "False"
  | .null => "None"
  | .arr _ => "<list>"
  | .obj _ => "<dict>"

/-- Iterating a parsed JSON value in a Python comprehension: a list yields
its elements, a string its characters, a dict its keys; a number, boolean
or null raises a TypeError. -/
def pyIter : Json → Except Unit (List Json)
  | .arr xs => .ok xs
  | .str s => .ok (s.data.map fun c => Json.str (String.mk [c]))
  | .obj fs => .ok (fs.map fun p => Json.str p.1)
  | _ => .error ()

/-- Python subscription of a parsed JSON value with a string key: only a
dict holding the key succeeds; a missing key is a KeyError and a
non-dict value a TypeError, both modelled as the error case. -/
def pyIndex (j : Json) (key : String) : Except Unit Json :=
  match j with
  | .obj fields =>
    match fields.lookup key with
    | some v => .ok v
    | none => .error ()
  | _ => .error ()

/-- Parse the model reply: attempt a full JSON parse and read the
`paraphrases` key (a failed key lookup or a non-dict parse raises past
this function, since only a JSON decode error is caught here); on a
decode error, look for a bracket-delimited substring and parse that,
where any failure of this salvage is swallowed and leaves no variants.
The JSON decoder and the bracket-substring search are oracle parameters
`loads` and `bracketSub`. -/
def parse_response (loads : String → Except Unit Json)
    (bracketSub : String → Option String)
    (response : String) (expected_count : Nat) : Except Unit (List String) :=
  match loads response with
  | .ok parsed =>
    match pyIndex parsed "paraphrases" with
    | .ok value =>
      match pyIter value with
      | .ok elems => .ok (clean_variants (elems.map pyStr) expected_count)
      | .error _ => .error ()
    | .error _ => .error ()
  | .error _ =>
    match bracketSub response with
    | some sub =>
      match loads sub with
      | .ok j =>
        match pyIter j with
        | .ok elems => .ok (clean_variants (elems.map pyStr) expected_count)
        | .error _ => .ok (clean_variants [] expected_count)
      | .error _ => .ok (clean_variants [] expected_count)
    | none => .ok (clean_variants [] expected_count)

/-- Generate paraphrase variants. Empty or whitespace-only text returns
no variants without calling the model; the requested count is clamped to
1..10 and the temperature to 0..1; the chained model call and the parse
both sit inside one handler that degrades any failure to no variants.
`chain` is the oracle for the prompted model call. -/
def generate_variants (loads : String → Except Unit Json)
    (bracketSub : String → Option String)
    (chain : String → Except Unit String)
    (text : String) (n : Int) (temperature : ℚ) : List String :=
  if (pyStrip text.data) = [] then []
  else
    let n' := (max 1 (min n 10)).toNat
    let _temp := max 0 (min temperature 1)
    match chain text with
    | .error _ => []
    | .ok response =>
      match parse_response loads bracketSub response n' with
      | .ok variants => variants
      | .error _ => []

end VariantGenerationService

/-! ## Retrieval service -/

namespace RetrievalService

/-- An embedding vector. -/
abbrev Emb := List ℚ

/-- A match candidate as produced by the sub-searches. -/
structure Match where
  faq_id : Nat
  question : String
  answer : String
  similarity : ℚ
  source : String
  matched_text : Option String
deriving DecidableEq

/-- A row of the query against the faqs table: id, question, answer and
the similarity computed by the store. -/
structure FaqRow where
  id : Nat
  question : String
  answer : String
  similarity : ℚ
deriving DecidableEq

/-- A row of the query against the faq_variants table joined with its
parent faq. -/
structure VariantRow where
  id : Nat
  question : String
  answer : String
  variant : String
  similarity : ℚ
deriving DecidableEq

/-- Search in the main faqs table: the database query is the oracle
`dbFaq`; a raised error is caught and yields no candidates. -/
def search_faqs_table (dbFaq : Emb → Nat → Except Unit (List FaqRow))
    (embedding : Emb) (top_k : Nat) : List Match :=
  match dbFaq embedding top_k with
  | .ok rows => rows.map fun r =>
      { faq_id := r.id, question := r.question, answer := r.answer,
        similarity := r.similarity, source := "faq", matched_text := none }
  | .error _ => []

/-- Search in the faq_variants table joined with faqs: the database query
is the oracle `dbVar`; a raised error is caught and yields no candidates. -/
def search_variants_table (dbVar : Emb → Nat → Except Unit (List VariantRow))
    (embedding : Emb) (top_k : Nat) : List Match :=
  match dbVar embedding top_k with
  | .ok rows => rows.map fun r =>
      { faq_id := r.id, question := r.question, answer := r.answer,
        similarity := r.similarity, source := "variant", matched_text := some r.variant }
  | .error _ => []

/-- One step of the deduplication dict: an unseen faq_id is appended, a
seen one is overwritten exactly when the new similarity is strictly
greater (insertion order preserved, as for a Python dict). -/
def dedupStep (acc : List Match) (m : Match) : List Match :=
  if acc.any fun y => y.faq_id == m.faq_id then
    acc.map fun y => if y.faq_id == m.faq_id && decide (y.similarity < m.similarity) then m else y
  else acc ++ [m]

/-- Deduplicate matches by faq_id, keeping the one with highest
similarity. -/
def deduplicate_matches (ms : List Match) : List Match :=
  ms.foldl dedupStep []

/-- Stable insertion before the first strictly-smaller similarity. -/
def insertDesc (m : Match) : List Match → List Match
  | [] => [m]
  | y :: ys => if y.similarity < m.similarity then m :: y :: ys else y :: insertDesc m ys

/-- The stable sort by similarity descending applied to the deduplicated
pool (a stable sort on the same key produces the same list as the
source's stable sort). -/
def sortDesc : List Match → List Match
  | [] => []
  | x :: xs => insertDesc x (sortDesc xs)

/-- The accumulation loop of the search: every query embedding is run
against both tables and all candidates are pooled in order. -/
def pooled_matches (dbFaq : Emb → Nat → Except Unit (List FaqRow))
    (dbVar : Emb → Nat → Except Unit (List VariantRow))
    (query_embeddings : List Emb) (top_k : Nat) : List Match :=
  query_embeddings.foldl
    (fun acc e => (acc ++ search_faqs_table dbFaq e top_k) ++ search_variants_table dbVar e top_k) []

/-- Search for similar FAQs with every query embedding against both
tables, pool all candidates, deduplicate by faq_id, sort by similarity
descending and keep the first top_k. -/
def search_similar_faqs (dbFaq : Emb → Nat → Except Unit (List FaqRow))
    (dbVar : Emb → Nat → Except Unit (List VariantRow))
    (query_embeddings : List Emb) (top_k : Nat) : List Match :=
  let all_matches := pooled_matches dbFaq dbVar query_embeddings top_k
  let deduplicated := deduplicate_matches all_matches
  (sortDesc deduplicated).take top_k

/-- Search with full metadata: embed the original query and each variant
(oracle `embed`), then delegate. -/
def search_with_metadata (dbFaq : Emb → Nat → Except Unit (List FaqRow))
    (dbVar : Emb → Nat → Except Unit (List VariantRow))
    (embed : String → Emb) (user_query : String) (query_variants : List String)
    (top_k : Nat) : List Match × List Emb :=
  let all_queries := user_query :: query_variants
  let embeddings := all_queries.map embed
  (search_similar_faqs dbFaq dbVar embeddings top_k, embeddings)

end RetrievalService

/-! ## Question answering service -/

namespace QuestionAnsweringService

/-- The response schema's similar-match payload. -/
structure SimilarMatch where
  faq_id : Nat
  question : String
  answer : String
  similarity : ℚ
  source : String
  matched_text : Option String
deriving DecidableEq

/-- The response schema. `processing_time_ms` carries the measured
elapsed time, an oracle input of the embedding (the 2-decimal rounding of
the wall clock is not modelled). -/
structure QuestionResponse where
  answer : String
  source : String
  confidence : ℚ
  matched_faq : Option SimilarMatch
  all_matches : List SimilarMatch
  generated_variants : Option (List String)
  processing_time_ms : ℚ
deriving DecidableEq

/-- The observable pipeline steps, recorded in order of invocation.
`searchCall` stands for search_with_metadata, which performs both the
embedding calls and the database search. -/
inductive Step where
  | routerCall
  | variantCall
  | searchCall
deriving DecidableEq

/-- The outcome of each external call the workflow makes, quantified over
by the theorems: the topic router, the variant generation, the retrieval
(embedding included) and the two answer chains. An error value models
that call raising. -/
structure QAEnv where
  routerResult : Except Unit String
  variantsResult : Except Unit (List String)
  searchResult : Except Unit (List RetrievalService.Match)
  ragResult : Except Unit String
  generalResult : Except Unit String

/-- Whether `pat` occurs as a contiguous substring, Python's `in` on
strings. -/
def hasInfix (pat : List Char) : List Char → Bool
  | [] => pat.isEmpty
  | c :: cs => pat.isPrefixOf (c :: cs) || hasInfix pat cs

/-- Python str.strip() with no arguments. -/
def trimStr (s : String) : String := String.mk (pyStrip s.data)

def default_general_answer : String :=
  "This is not really what I was trained for, therefore I cannot answer. Try again."

def error_answer : String :=
  "I apologize, but I encountered an error processing your question. Please try again."

def llm_fallback_answer : String :=
  "I apologize, but I'm unable to generate an answer at this time. Please try rephrasing your question or contact support."

/-- The degraded response the top-level handler returns. -/
def error_response (elapsed : ℚ) : QuestionResponse :=
  { answer := error_answer, source := "error", confidence := 0, matched_faq := none,
    all_matches := [], generated_variants := none, processing_time_ms := elapsed }

def build_similar_match (m : RetrievalService.Match) : SimilarMatch :=
  { faq_id := m.faq_id, question := m.question, answer := m.answer,
    similarity := m.similarity, source := m.source, matched_text := m.matched_text }

def build_context (ms : List RetrievalService.Match) : String :=
  String.intercalate "\n"
    ((List.range ms.length).zip ms |>.map fun p =>
      "FAQ " ++ toString (p.1 + 1) ++ ":\n" ++ "Q: " ++ p.2.question ++ "\n" ++
        "A: " ++ p.2.answer ++ "\n")

/-- Generate the synthesized answer: keep the context matches with
similarity at least 0.5, take the first 3; with context call the RAG
chain, without it the general chain; any failure of the chain call is
caught here and yields the fixed fallback text. -/
def generate_llm_answer (env : QAEnv) (context_matches : List RetrievalService.Match) : String :=
  let context_faqs := (context_matches.filter fun m => decide ((1:ℚ)/2 ≤ m.similarity)).take 3
  if context_faqs = [] then
    match env.generalResult with
    | .ok answer => trimStr answer
    | .error _ => llm_fallback_answer
  else
    match env.ragResult with
    | .ok answer => trimStr answer
    | .error _ => llm_fallback_answer

/-- The answering workflow. Classify; short-circuit a General question to
the canned refusal; otherwise generate variants when asked, retrieve, and
route on the best similarity against the confidence threshold; any error
raised by the router, the variant call or the retrieval is caught by the
top-level handler and becomes the degraded error response. Returns the
response together with the trace of external steps invoked. -/
def answer_question (env : QAEnv) (user_question : String)
    (generate_variants_flag : Bool) (num_variants : Nat)
    (confidence_threshold : ℚ) (elapsed : ℚ) : QuestionResponse × List Step :=
  match env.routerResult with
  | .error _ => (error_response elapsed, [Step.routerCall])
  | .ok question_category =>
    if hasInfix "general".data (lowerStr question_category).data then
      ({ answer := default_general_answer, source := "llm", confidence := 1,
         matched_faq := none, all_matches := [], generated_variants := none,
         processing_time_ms := elapsed }, [Step.routerCall])
    else
      let variantTrace := if generate_variants_flag then [Step.variantCall] else []
      match (if generate_variants_flag then env.variantsResult else .ok []) with
      | .error _ => (error_response elapsed, Step.routerCall :: variantTrace)
      | .ok variants =>
        match env.searchResult with
        | .error _ => (error_response elapsed, Step.routerCall :: variantTrace ++ [Step.searchCall])
        | .ok matchList =>
          let best_match := matchList.head?
          let confidence : ℚ := match best_match with | some m => m.similarity | none => 0
          let decided : String × String :=
            match best_match with
            | some bm =>
              if confidence_threshold ≤ confidence then (bm.answer, "database")
              else (generate_llm_answer env matchList, "llm")
            | none => (generate_llm_answer env matchList, "llm")
          ({ answer := decided.1, source := decided.2, confidence := confidence,
             matched_faq := best_match.map build_similar_match,
             all_matches := matchList.map build_similar_match,
             generated_variants := if generate_variants_flag then some variants else none,
             processing_time_ms := elapsed },
           Step.routerCall :: variantTrace ++ [Step.searchCall])

end QuestionAnsweringService

/-! ## Lemmas about the deduplication and the sort -/

namespace RetrievalService

/-- The faq_id keys of a candidate list. -/
def matchKeys (l : List Match) : List Nat := l.map fun m => m.faq_id

/-- The invariant the deduplication fold maintains: the kept candidates
have pairwise distinct keys, exactly the keys of the processed prefix,
and each kept candidate is a processed candidate whose similarity is
maximal for its key. -/
def DedupInv (seen acc : List Match) : Prop :=
  (matchKeys acc).Nodup ∧
  (∀ fid, fid ∈ matchKeys acc ↔ fid ∈ matchKeys seen) ∧
  ∀ y ∈ acc, y ∈ seen ∧ ∀ x ∈ seen, x.faq_id = y.faq_id → x.similarity ≤ y.similarity

theorem matchKeys_append (l1 l2 : List Match) :
    matchKeys (l1 ++ l2) = matchKeys l1 ++ matchKeys l2 := by
  simp [matchKeys]

theorem mem_matchKeys_snoc {fid : Nat} {l : List Match} {m : Match} :
    fid ∈ matchKeys (l ++ [m]) ↔ fid ∈ matchKeys l ∨ fid = m.faq_id := by
  simp [matchKeys_append, matchKeys]

theorem dedupStep_inv {seen acc : List Match} (m : Match) (h : DedupInv seen acc) :
    DedupInv (seen ++ [m]) (dedupStep acc m) := by
  obtain ⟨hnd, hiff, hmax⟩ := h
  unfold dedupStep
  by_cases hin : (acc.any fun y => y.faq_id == m.faq_id) = true
  · rw [if_pos hin]
    have hkeys : matchKeys (acc.map fun y =>
        if y.faq_id == m.faq_id && decide (y.similarity < m.similarity) then m else y) =
        matchKeys acc := by
      unfold matchKeys
      rw [List.map_map]
      refine List.map_congr_left fun y _ => ?_
      by_cases hc : (y.faq_id == m.faq_id && decide (y.similarity < m.similarity)) = true
      · have hyk : y.faq_id = m.faq_id := beq_iff_eq.mp ((Bool.and_eq_true _ _).mp hc).1
        simp only [Function.comp_apply]
        rw [if_pos hc, hyk]
      · simp only [Function.comp_apply]
        rw [if_neg hc]
    refine ⟨by rw [hkeys]; exact hnd, ?_, ?_⟩
    · intro fid
      rw [hkeys, mem_matchKeys_snoc]
      constructor
      · intro hf
        exact Or.inl ((hiff fid).mp hf)
      · rintro (hf | hf)
        · exact (hiff fid).mpr hf
        · subst hf
          obtain ⟨y, hy, hyk⟩ := List.any_eq_true.mp hin
          have hk : y.faq_id = m.faq_id := beq_iff_eq.mp hyk
          rw [← hk]
          exact List.mem_map.mpr ⟨y, hy, rfl⟩
    · intro y' hy'
      obtain ⟨y, hy, hrepl⟩ := List.mem_map.mp hy'
      by_cases hc : (y.faq_id == m.faq_id && decide (y.similarity < m.similarity)) = true
      · rw [if_pos hc] at hrepl
        subst hrepl
        have hyk : y.faq_id = m.faq_id := beq_iff_eq.mp ((Bool.and_eq_true _ _).mp hc).1
        have hys : y.similarity < m.similarity :=
          of_decide_eq_true ((Bool.and_eq_true _ _).mp hc).2
        refine ⟨List.mem_append.mpr (Or.inr (List.mem_singleton.mpr rfl)), ?_⟩
        intro x hx hxk
        rcases List.mem_append.mp hx with hx | hx
        · have := (hmax y hy).2 x hx (hxk.trans hyk.symm)
          exact le_of_lt (lt_of_le_of_lt this hys)
        · rw [List.mem_singleton.mp hx]
      · rw [if_neg hc] at hrepl
        subst hrepl
        refine ⟨List.mem_append.mpr (Or.inl (hmax y hy).1), ?_⟩
        intro x hx hxk
        rcases List.mem_append.mp hx with hx | hx
        · exact (hmax y hy).2 x hx hxk
        · rw [List.mem_singleton.mp hx] at hxk ⊢
          have hbk : (y.faq_id == m.faq_id) = true := beq_iff_eq.mpr hxk.symm
          by_contra hnle
          have hlt : y.similarity < m.similarity := lt_of_not_le hnle
          exact hc (by rw [hbk, decide_eq_true hlt]; rfl)
  · rw [if_neg hin]
    have hnotin : m.faq_id ∉ matchKeys acc := by
      intro hmem
      obtain ⟨y, hy, hyk⟩ := List.mem_map.mp hmem
      exact hin (List.any_eq_true.mpr ⟨y, hy, beq_iff_eq.mpr hyk⟩)
    refine ⟨?_, ?_, ?_⟩
    · rw [matchKeys_append, List.nodup_append]
      refine ⟨hnd, List.nodup_singleton _, ?_⟩
      intro a ha hb
      simp only [matchKeys, List.map_cons, List.map_nil, List.mem_singleton] at hb
      subst hb
      exact hnotin ha
    · intro fid
      rw [mem_matchKeys_snoc, mem_matchKeys_snoc]
      exact or_congr (hiff fid) Iff.rfl
    · intro y' hy'
      rcases List.mem_append.mp hy' with hy | hy
      · refine ⟨List.mem_append.mpr (Or.inl (hmax y' hy).1), ?_⟩
        intro x hx hxk
        rcases List.mem_append.mp hx with hx | hx
        · exact (hmax y' hy).2 x hx hxk
        · rw [List.mem_singleton.mp hx] at hxk ⊢
          exact absurd (hxk ▸ List.mem_map.mpr ⟨y', hy, rfl⟩) hnotin
      · rw [List.mem_singleton.mp hy]
        refine ⟨List.mem_append.mpr (Or.inr (List.mem_singleton.mpr rfl)), ?_⟩
        intro x hx hxk
        rcases List.mem_append.mp hx with hx | hx
        · have : x.faq_id ∈ matchKeys seen := List.mem_map.mpr ⟨x, hx, rfl⟩
          rw [hxk] at this
          exact absurd ((hiff m.faq_id).mpr this) hnotin
        · rw [List.mem_singleton.mp hx]

theorem foldl_dedup_inv :
    ∀ (l : List Match) {seen acc : List Match}, DedupInv seen acc →
      DedupInv (seen ++ l) (l.foldl dedupStep acc)
  | [], seen, acc, h => by simpa using h
  | x :: l, seen, acc, h => by
    have h2 := foldl_dedup_inv l (dedupStep_inv x h)
    rw [List.append_assoc] at h2
    simpa using h2

theorem dedup_inv (ms : List Match) : DedupInv ms (deduplicate_matches ms) := by
  have h0 : DedupInv [] [] :=
    ⟨List.nodup_nil, fun fid => Iff.rfl, fun y hy => absurd hy (List.not_mem_nil y)⟩
  have := foldl_dedup_inv ms h0
  simpa [deduplicate_matches] using this

theorem dedup_length (ms : List Match) :
    (deduplicate_matches ms).length = ((ms.map fun m => m.faq_id).toFinset).card := by
  have inv := dedup_inv ms
  have hfin : ((deduplicate_matches ms).map fun m => m.faq_id).toFinset =
      (ms.map fun m => m.faq_id).toFinset := by
    ext fid
    simp only [List.mem_toFinset]
    exact inv.2.1 fid
  calc (deduplicate_matches ms).length
      = ((deduplicate_matches ms).map fun m => m.faq_id).length := (List.length_map _ _).symm
    _ = ((deduplicate_matches ms).map fun m => m.faq_id).toFinset.card :=
        (List.toFinset_card_of_nodup inv.1).symm
    _ = ((ms.map fun m => m.faq_id).toFinset).card := by rw [hfin]

theorem length_insertDesc (m : Match) : ∀ l : List Match,
    (insertDesc m l).length = l.length + 1
  | [] => rfl
  | y :: ys => by
    unfold insertDesc
    by_cases h : y.similarity < m.similarity
    · simp [h]
    · simp [h, length_insertDesc m ys]

theorem mem_insertDesc {a m : Match} : ∀ {l : List Match},
    a ∈ insertDesc m l ↔ a = m ∨ a ∈ l
  | [] => by simp [insertDesc]
  | y :: ys => by
    unfold insertDesc
    by_cases h : y.similarity < m.similarity
    · simp [h, or_comm, or_assoc, or_left_comm]
    · simp only [h, if_false, List.mem_cons, mem_insertDesc (l := ys)]
      tauto

theorem pairwise_insertDesc (m : Match) : ∀ {l : List Match},
    l.Pairwise (fun a b => b.similarity ≤ a.similarity) →
    (insertDesc m l).Pairwise (fun a b => b.similarity ≤ a.similarity)
  | [], _ => List.pairwise_singleton _ _
  | y :: ys, h => by
    rw [List.pairwise_cons] at h
    unfold insertDesc
    by_cases hc : y.similarity < m.similarity
    · simp only [hc, if_true]
      rw [List.pairwise_cons]
      refine ⟨?_, List.pairwise_cons.mpr h⟩
      intro z hz
      rcases List.mem_cons.mp hz with hz | hz
      · rw [hz]; exact le_of_lt hc
      · exact le_of_lt (lt_of_le_of_lt (h.1 z hz) hc)
    · simp only [hc, if_false]
      rw [List.pairwise_cons]
      refine ⟨?_, pairwise_insertDesc m h.2⟩
      intro z hz
      rcases mem_insertDesc.mp hz with hz | hz
      · rw [hz]; exact le_of_not_lt hc
      · exact h.1 z hz

theorem length_sortDesc : ∀ l : List Match, (sortDesc l).length = l.length
  | [] => rfl
  | x :: xs => by
    unfold sortDesc
    rw [length_insertDesc, length_sortDesc xs, List.length_cons]

theorem pairwise_sortDesc : ∀ l : List Match,
    (sortDesc l).Pairwise (fun a b => b.similarity ≤ a.similarity)
  | [] => List.Pairwise.nil
  | x :: xs => pairwise_insertDesc x (pairwise_sortDesc xs)

end RetrievalService

namespace RetrievalService

/-- A sub-search oracle with its raised errors replaced by an empty
result set: the behaviour the failure policy ascribes to a failing
sub-search. -/
def orEmptyFaq (dbFaq : Emb → Nat → Except Unit (List FaqRow)) :
    Emb → Nat → Except Unit (List FaqRow) := fun e k =>
  match dbFaq e k with
  | .ok rows => .ok rows
  | .error _ => .ok []

/-- The variants-table analogue of `orEmptyFaq`. -/
def orEmptyVar (dbVar : Emb → Nat → Except Unit (List VariantRow)) :
    Emb → Nat → Except Unit (List VariantRow) := fun e k =>
  match dbVar e k with
  | .ok rows => .ok rows
  | .error _ => .ok []

theorem search_faqs_table_orEmpty (dbFaq : Emb → Nat → Except Unit (List FaqRow))
    (e : Emb) (k : Nat) :
    search_faqs_table (orEmptyFaq dbFaq) e k = search_faqs_table dbFaq e k := by
  unfold search_faqs_table orEmptyFaq
  cases dbFaq e k <;> simp

theorem search_variants_table_orEmpty (dbVar : Emb → Nat → Except Unit (List VariantRow))
    (e : Emb) (k : Nat) :
    search_variants_table (orEmptyVar dbVar) e k = search_variants_table dbVar e k := by
  unfold search_variants_table orEmptyVar
  cases dbVar e k <;> simp

theorem pooled_matches_orEmpty (dbFaq : Emb → Nat → Except Unit (List FaqRow))
    (dbVar : Emb → Nat → Except Unit (List VariantRow))
    (query_embeddings : List Emb) (top_k : Nat) :
    pooled_matches (orEmptyFaq dbFaq) (orEmptyVar dbVar) query_embeddings top_k =
      pooled_matches dbFaq dbVar query_embeddings top_k := by
  unfold pooled_matches
  refine List.foldl_ext _ _ _ fun acc e _ => ?_
  rw [search_faqs_table_orEmpty, search_variants_table_orEmpty]

end RetrievalService

/-! ## The claims on the retrieval service -/

/-- C1. Deduplication keeps exactly one candidate per distinct faq_id of
the input, a candidate of the input whose similarity is greatest among
the input candidates sharing its faq_id. -/
theorem dedup_one_max_per_faq_id (ms : List RetrievalService.Match) :
    ((RetrievalService.deduplicate_matches ms).map fun m => m.faq_id).Nodup ∧
    (∀ fid, (fid ∈ (RetrievalService.deduplicate_matches ms).map fun m => m.faq_id) ↔
      fid ∈ ms.map fun m => m.faq_id) ∧
    ∀ y ∈ RetrievalService.deduplicate_matches ms, y ∈ ms ∧
      ∀ x ∈ ms, x.faq_id = y.faq_id → x.similarity ≤ y.similarity := by
  have inv := RetrievalService.dedup_inv ms
  exact ⟨inv.1, inv.2.1, inv.2.2⟩

/-- C4. The search result is non-increasing in similarity, and its length
is bounded by top_k and by the number of distinct faq_ids among the
pooled sub-search candidates. -/
theorem search_sorted_topk_bound
    (dbFaq : RetrievalService.Emb → Nat → Except Unit (List RetrievalService.FaqRow))
    (dbVar : RetrievalService.Emb → Nat → Except Unit (List RetrievalService.VariantRow))
    (query_embeddings : List RetrievalService.Emb) (top_k : Nat) :
    (RetrievalService.search_similar_faqs dbFaq dbVar query_embeddings top_k).Pairwise
      (fun a b => b.similarity ≤ a.similarity) ∧
    (RetrievalService.search_similar_faqs dbFaq dbVar query_embeddings top_k).length ≤ top_k ∧
    (RetrievalService.search_similar_faqs dbFaq dbVar query_embeddings top_k).length ≤
      (((RetrievalService.pooled_matches dbFaq dbVar query_embeddings top_k).map
        fun m => m.faq_id).toFinset).card := by
  unfold RetrievalService.search_similar_faqs
  refine ⟨?_, ?_, ?_⟩
  · exact (RetrievalService.pairwise_sortDesc _).sublist (List.take_sublist _ _)
  · rw [List.length_take]
    exact min_le_left _ _
  · rw [List.length_take]
    refine le_trans (min_le_right _ _) ?_
    rw [RetrievalService.length_sortDesc, RetrievalService.dedup_length]

/-- C7. A raised error in a sub-search contributes an empty candidate
list, and the whole search behaves exactly as if the failing sub-searches
had returned no rows: no exception escapes the search. -/
theorem subsearch_failure_isolated
    (dbFaq : RetrievalService.Emb → Nat → Except Unit (List RetrievalService.FaqRow))
    (dbVar : RetrievalService.Emb → Nat → Except Unit (List RetrievalService.VariantRow))
    (query_embeddings : List RetrievalService.Emb) (top_k : Nat) :
    (∀ e k, dbFaq e k = .error () → RetrievalService.search_faqs_table dbFaq e k = []) ∧
    (∀ e k, dbVar e k = .error () → RetrievalService.search_variants_table dbVar e k = []) ∧
    RetrievalService.search_similar_faqs dbFaq dbVar query_embeddings top_k =
      RetrievalService.search_similar_faqs (RetrievalService.orEmptyFaq dbFaq)
        (RetrievalService.orEmptyVar dbVar) query_embeddings top_k := by
  refine ⟨?_, ?_, ?_⟩
  · intro e k he
    unfold RetrievalService.search_faqs_table
    rw [he]
  · intro e k he
    unfold RetrievalService.search_variants_table
    rw [he]
  · unfold RetrievalService.search_similar_faqs
    rw [RetrievalService.pooled_matches_orEmpty]

/-! ## Lemmas about the variant cleaner -/

namespace VariantGenerationService

theorem cleanLoop_length_le (ec : Nat) :
    ∀ (vars seen cleaned : List String), cleaned.length < ec →
      (cleanLoop ec vars seen cleaned).length ≤ ec
  | [], _, _, h => le_of_lt h
  | v :: rest, seen, cleaned, h => by
    show (if cleanOne v = "" ∨ lowerStr (cleanOne v) ∈ seen then
        cleanLoop ec rest seen cleaned
      else
        if ec ≤ (cleaned ++ [cleanOne v]).length then cleaned ++ [cleanOne v]
        else cleanLoop ec rest (lowerStr (cleanOne v) :: seen)
          (cleaned ++ [cleanOne v])).length ≤ ec
    by_cases h1 : cleanOne v = "" ∨ lowerStr (cleanOne v) ∈ seen
    · rw [if_pos h1]
      exact cleanLoop_length_le ec rest seen cleaned h
    · rw [if_neg h1]
      by_cases h2 : ec ≤ (cleaned ++ [cleanOne v]).length
      · rw [if_pos h2]
        simp only [List.length_append, List.length_singleton]
        omega
      · rw [if_neg h2]
        refine cleanLoop_length_le ec rest _ _ ?_
        simp only [List.length_append, List.length_singleton] at h2 ⊢
        omega

theorem cleanLoop_pairwise (ec : Nat) :
    ∀ (vars seen cleaned : List String),
      (∀ c ∈ cleaned, lowerStr c ∈ seen) →
      cleaned.Pairwise (fun a b => lowerStr a ≠ lowerStr b) →
      (cleanLoop ec vars seen cleaned).Pairwise (fun a b => lowerStr a ≠ lowerStr b)
  | [], _, _, _, hp => hp
  | v :: rest, seen, cleaned, hmem, hp => by
    show (if cleanOne v = "" ∨ lowerStr (cleanOne v) ∈ seen then
        cleanLoop ec rest seen cleaned
      else
        if ec ≤ (cleaned ++ [cleanOne v]).length then cleaned ++ [cleanOne v]
        else cleanLoop ec rest (lowerStr (cleanOne v) :: seen)
          (cleaned ++ [cleanOne v])).Pairwise (fun a b => lowerStr a ≠ lowerStr b)
    by_cases h1 : cleanOne v = "" ∨ lowerStr (cleanOne v) ∈ seen
    · rw [if_pos h1]
      exact cleanLoop_pairwise ec rest seen cleaned hmem hp
    · rw [if_neg h1]
      have hnotseen : lowerStr (cleanOne v) ∉ seen := fun hmem' => h1 (Or.inr hmem')
      have hsnoc : (cleaned ++ [cleanOne v]).Pairwise
          (fun a b => lowerStr a ≠ lowerStr b) := by
        rw [List.pairwise_append]
        refine ⟨hp, List.pairwise_singleton _ _, ?_⟩
        intro a ha b hb
        rw [List.mem_singleton.mp hb]
        intro heq
        exact hnotseen (heq ▸ hmem a ha)
      by_cases h2 : ec ≤ (cleaned ++ [cleanOne v]).length
      · rw [if_pos h2]
        exact hsnoc
      · rw [if_neg h2]
        refine cleanLoop_pairwise ec rest _ _ ?_ hsnoc
        intro c hc
        rcases List.mem_append.mp hc with hc | hc
        · exact List.mem_cons_of_mem _ (hmem c hc)
        · rw [List.mem_singleton.mp hc]
          exact List.mem_cons_self _ _

theorem clean_variants_spec (vars : List String) (ec : Nat) (h : 1 ≤ ec) :
    (clean_variants vars ec).length ≤ ec ∧
    (clean_variants vars ec).Pairwise (fun a b => lowerStr a ≠ lowerStr b) :=
  ⟨cleanLoop_length_le ec vars [] [] (by simpa using h),
   cleanLoop_pairwise ec vars [] [] (fun c hc => absurd hc (List.not_mem_nil c))
     List.Pairwise.nil⟩

theorem parse_response_ok (loads : String → Except Unit Json)
    (bracketSub : String → Option String) (response : String) (ec : Nat)
    (vs : List String) (h : parse_response loads bracketSub response ec = .ok vs)
    (hec : 1 ≤ ec) :
    vs.length ≤ ec ∧ vs.Pairwise (fun a b => lowerStr a ≠ lowerStr b) := by
  unfold parse_response at h
  rcases hL : loads response with e | parsed
  · simp only [hL] at h
    rcases hB : bracketSub response with _ | sub
    · simp only [hB] at h
      cases h
      exact clean_variants_spec _ _ hec
    · simp only [hB] at h
      rcases hS : loads sub with e2 | j
      · simp only [hS] at h
        cases h
        exact clean_variants_spec _ _ hec
      · simp only [hS] at h
        rcases hI : pyIter j with e3 | elems
        · simp only [hI] at h
          cases h
          exact clean_variants_spec _ _ hec
        · simp only [hI] at h
          cases h
          exact clean_variants_spec _ _ hec
  · simp only [hL] at h
    rcases hX : pyIndex parsed "paraphrases" with e2 | value
    · simp only [hX] at h
      cases h
    · simp only [hX] at h
      rcases hI : pyIter value with e3 | elems
      · simp only [hI] at h
        cases h
      · simp only [hI] at h
        cases h
        exact clean_variants_spec _ _ hec

end VariantGenerationService

namespace VariantGenerationService

/-- The JSON text of a reply wrapping the paraphrase array in an object,
and a decoder oracle that parses exactly it. -/
def jsonHiResponse : String := "\x7b\"paraphrases\": [\"' hi '\", \"hi\"]\x7d"

def loadsHi : String → Except Unit Json := fun s =>
  if s = jsonHiResponse then
    .ok (.obj [("paraphrases", .arr [.str "' hi '", .str "hi"])])
  else .error ()

/-- A bracket-substring search that finds nothing. -/
def bracketNone : String → Option String := fun _ => none

/-- A model chain that replies with the object-wrapped array. -/
def chainHi : String → Except Unit String := fun _ => .ok jsonHiResponse

/-- The JSON text of a reply that is a bare array, and a decoder oracle
that parses exactly it. -/
def jsonArrResponse : String := "[\"a\", \"b\"]"

def loadsArr : String → Except Unit Json := fun s =>
  if s = jsonArrResponse then .ok (.arr [.str "a", .str "b"]) else .error ()

/-- A model chain that replies with the bare array. -/
def chainArr : String → Except Unit String := fun _ => .ok jsonArrResponse

end VariantGenerationService

/-! ## The claims on the variant service -/

/-- C5 (amended). Variant generation returns at most min(max(n,1),10)
variants — out-of-range n is clamped, never a failure — and no two
returned entries are equal case-insensitively as returned; the claim's
stronger reading, that no two entries coincide after re-applying the
collapse/trim/quote-strip normalization, fails (see the counterexample):
stripping wrapping quotes can expose surrounding whitespace again. -/
theorem variant_count_and_dedup_bound
    (loads : String → Except Unit VariantGenerationService.Json)
    (bracketSub : String → Option String)
    (chain : String → Except Unit String)
    (text : String) (n : Int) (temperature : ℚ) :
    (VariantGenerationService.generate_variants loads bracketSub chain
      text n temperature).length ≤ (min (max n 1) 10).toNat ∧
    (VariantGenerationService.generate_variants loads bracketSub chain
      text n temperature).Pairwise (fun a b => lowerStr a ≠ lowerStr b) := by
  unfold VariantGenerationService.generate_variants
  by_cases ht : pyStrip text.data = []
  · rw [if_pos ht]
    exact ⟨Nat.zero_le _, List.Pairwise.nil⟩
  · rw [if_neg ht]
    rcases hc : chain text with e | response
    · simp only [hc]
      exact ⟨Nat.zero_le _, List.Pairwise.nil⟩
    · simp only [hc]
      rcases hp : VariantGenerationService.parse_response loads bracketSub response
          ((max 1 (min n 10)).toNat) with e | vs
      · simp only [hp]
        exact ⟨Nat.zero_le _, List.Pairwise.nil⟩
      · simp only [hp]
        have hec : 1 ≤ (max 1 (min n 10)).toNat := by omega
        have hspec := VariantGenerationService.parse_response_ok loads bracketSub
          response _ vs hp hec
        refine ⟨le_trans hspec.1 ?_, hspec.2⟩
        omega

/-- C5 counterexample: with a reply whose paraphrase array is
["' hi '", "hi"], the returned variants are " hi " and "hi" — distinct
and distinct case-insensitively as returned, but equal (so equal
case-insensitively) after re-applying whitespace collapsing, trimming
and quote stripping, because the quote strip uncovered the blanks. -/
theorem variant_norm_dedup_cex :
    VariantGenerationService.generate_variants VariantGenerationService.loadsHi
      VariantGenerationService.bracketNone VariantGenerationService.chainHi
      "What is an FAQ" 3 1 = [" hi ", "hi"] ∧
    cleanOne " hi " = "hi" ∧ cleanOne "hi" = "hi" ∧
    lowerStr (cleanOne " hi ") = lowerStr (cleanOne "hi") ∧
    " hi " ≠ "hi" := by
  refine ⟨by decide, by decide, by decide, by decide, by decide⟩

/-- C8 (amended). A reply that parses as an object carrying the
paraphrase array under the known key yields the cleaned, deduplicated,
truncated variants; a reply that is itself a bare valid-JSON array makes
the key lookup raise, so generation degrades to no variants — the direct
array is accepted only through the bracket-substring salvage, which runs
when the full reply is not valid JSON; in every case nothing is raised
past generate_variants. -/
theorem parse_object_array_salvage
    (loads : String → Except Unit VariantGenerationService.Json)
    (bracketSub : String → Option String)
    (chain : String → Except Unit String)
    (text response sub : String) (n : Int) (temperature : ℚ)
    (xs : List VariantGenerationService.Json)
    (fields : List (String × VariantGenerationService.Json)) :
    (pyStrip text.data ≠ [] → chain text = .ok response →
      loads response = .ok (.obj fields) →
      fields.lookup "paraphrases" = some (.arr xs) →
      VariantGenerationService.generate_variants loads bracketSub chain
        text n temperature =
        VariantGenerationService.clean_variants
          (xs.map VariantGenerationService.pyStr) ((max 1 (min n 10)).toNat)) ∧
    (pyStrip text.data ≠ [] → chain text = .ok response →
      loads response = .ok (.arr xs) →
      VariantGenerationService.generate_variants loads bracketSub chain
        text n temperature = []) ∧
    (pyStrip text.data ≠ [] → chain text = .ok response →
      loads response = .error () → bracketSub response = some sub →
      loads sub = .ok (.arr xs) →
      VariantGenerationService.generate_variants loads bracketSub chain
        text n temperature =
        VariantGenerationService.clean_variants
          (xs.map VariantGenerationService.pyStr) ((max 1 (min n 10)).toNat)) := by
  refine ⟨?_, ?_, ?_⟩
  · intro ht hc hl hk
    unfold VariantGenerationService.generate_variants
    rw [if_neg ht]
    simp only [hc]
    unfold VariantGenerationService.parse_response
    simp only [hl]
    unfold VariantGenerationService.pyIndex
    simp only [hk]
    unfold VariantGenerationService.pyIter
    rfl
  · intro ht hc hl
    unfold VariantGenerationService.generate_variants
    rw [if_neg ht]
    simp only [hc]
    unfold VariantGenerationService.parse_response
    simp only [hl]
    unfold VariantGenerationService.pyIndex
    rfl
  · intro ht hc hl hb hs
    unfold VariantGenerationService.generate_variants
    rw [if_neg ht]
    simp only [hc]
    unfold VariantGenerationService.parse_response
    simp only [hl, hb, hs]
    unfold VariantGenerationService.pyIter
    rfl

/-- C8 witness: the object case at a concrete reply yields the cleaned
array elements; the bare-array case yields no variants. -/
theorem parse_object_array_salvage_witness :
    VariantGenerationService.generate_variants VariantGenerationService.loadsHi
      VariantGenerationService.bracketNone VariantGenerationService.chainHi
      "q" 3 1 =
      VariantGenerationService.clean_variants ["' hi '", "hi"] 3 ∧
    VariantGenerationService.generate_variants VariantGenerationService.loadsArr
      VariantGenerationService.bracketNone VariantGenerationService.chainArr
      "q" 3 1 = [] := by
  constructor
  · exact (parse_object_array_salvage VariantGenerationService.loadsHi
      VariantGenerationService.bracketNone VariantGenerationService.chainHi
      "q" VariantGenerationService.jsonHiResponse "" 3 1
      [.str "' hi '", .str "hi"]
      [("paraphrases", .arr [.str "' hi '", .str "hi"])]).1
      (by decide) rfl rfl rfl
  · exact (parse_object_array_salvage VariantGenerationService.loadsArr
      VariantGenerationService.bracketNone VariantGenerationService.chainArr
      "q" VariantGenerationService.jsonArrResponse "" 3 1
      [.str "a", .str "b"] []).2.1
      (by decide) rfl rfl

/-- C8 counterexample: a reply that IS a valid JSON bare array of strings
is not parsed into its cleaned elements — the key lookup raises, the
outer handler swallows it, and generate_variants returns no variants,
while the cleaned elements would have been ["a", "b"]. -/
theorem parse_direct_array_cex :
    VariantGenerationService.generate_variants VariantGenerationService.loadsArr
      VariantGenerationService.bracketNone VariantGenerationService.chainArr
      "q" 3 1 = [] ∧
    VariantGenerationService.clean_variants ["a", "b"] 3 = ["a", "b"] ∧
    ([] : List String) ≠ ["a", "b"] ∧
    (VariantGenerationService.parse_response VariantGenerationService.loadsArr
      VariantGenerationService.bracketNone VariantGenerationService.jsonArrResponse
      3).toOption = none := by
  refine ⟨by decide, by decide, by decide, by decide⟩

/-! ## Run lemmas for the answering workflow -/

namespace QuestionAnsweringService

theorem answer_question_router_err (env : QAEnv) (q : String) (flag : Bool)
    (nv : Nat) (th elapsed : ℚ) (hr : env.routerResult = .error ()) :
    answer_question env q flag nv th elapsed = (error_response elapsed, [Step.routerCall]) := by
  unfold answer_question
  simp only [hr]

theorem answer_question_general (env : QAEnv) (q : String) (flag : Bool)
    (nv : Nat) (th elapsed : ℚ) (cat : String) (hr : env.routerResult = .ok cat)
    (hg : hasInfix "general".data (lowerStr cat).data = true) :
    answer_question env q flag nv th elapsed =
      ({ answer := default_general_answer, source := "llm", confidence := 1,
         matched_faq := none, all_matches := [], generated_variants := none,
         processing_time_ms := elapsed }, [Step.routerCall]) := by
  unfold answer_question
  simp only [hr]
  rw [if_pos hg]

theorem answer_question_variants_err (env : QAEnv) (q : String)
    (nv : Nat) (th elapsed : ℚ) (cat : String) (hr : env.routerResult = .ok cat)
    (hg : hasInfix "general".data (lowerStr cat).data = false)
    (hv : env.variantsResult = .error ()) :
    answer_question env q true nv th elapsed =
      (error_response elapsed, [Step.routerCall, Step.variantCall]) := by
  unfold answer_question
  simp only [hr]
  rw [if_neg (by simp [hg])]
  simp only [if_true, hv]

theorem answer_question_search_err (env : QAEnv) (q : String) (flag : Bool)
    (nv : Nat) (th elapsed : ℚ) (cat : String) (variants : List String)
    (hr : env.routerResult = .ok cat)
    (hg : hasInfix "general".data (lowerStr cat).data = false)
    (hv : (if flag then env.variantsResult else Except.ok []) = .ok variants)
    (hs : env.searchResult = .error ()) :
    answer_question env q flag nv th elapsed =
      (error_response elapsed,
       Step.routerCall :: (if flag then [Step.variantCall] else []) ++ [Step.searchCall]) := by
  unfold answer_question
  simp only [hr]
  rw [if_neg (by simp [hg])]
  simp only [hv, hs]

theorem answer_question_ok (env : QAEnv) (q : String) (flag : Bool)
    (nv : Nat) (th elapsed : ℚ) (cat : String) (variants : List String)
    (ms : List RetrievalService.Match)
    (hr : env.routerResult = .ok cat)
    (hg : hasInfix "general".data (lowerStr cat).data = false)
    (hv : (if flag then env.variantsResult else Except.ok []) = .ok variants)
    (hs : env.searchResult = .ok ms) :
    answer_question env q flag nv th elapsed =
      ({ answer :=
           (match ms.head? with
            | some bm =>
              if th ≤ bm.similarity then bm.answer else generate_llm_answer env ms
            | none => generate_llm_answer env ms),
         source :=
           (match ms.head? with
            | some bm => if th ≤ bm.similarity then "database" else "llm"
            | none => "llm"),
         confidence := (match ms.head? with | some m => m.similarity | none => 0),
         matched_faq := ms.head?.map build_similar_match,
         all_matches := ms.map build_similar_match,
         generated_variants := if flag then some variants else none,
         processing_time_ms := elapsed },
       Step.routerCall :: (if flag then [Step.variantCall] else []) ++ [Step.searchCall]) := by
  unfold answer_question
  simp only [hr]
  rw [if_neg (by simp [hg])]
  simp only [hv, hs]
  rcases ms with _ | ⟨m, rest⟩
  · rfl
  · by_cases hth : th ≤ m.similarity <;> simp [hth]

theorem generate_llm_answer_fail (env : QAEnv) (ms : List RetrievalService.Match)
    (hrag : env.ragResult = .error ()) (hgen : env.generalResult = .error ()) :
    generate_llm_answer env ms = llm_fallback_answer := by
  unfold generate_llm_answer
  by_cases hc : (ms.filter fun m => decide ((1:ℚ)/2 ≤ m.similarity)).take 3 = []
  · rw [if_pos hc, hgen]
  · rw [if_neg hc, hrag]

end QuestionAnsweringService

namespace QuestionAnsweringService

/-- A candidate whose similarity 0.7499 sits just below the threshold. -/
def mLow : RetrievalService.Match :=
  { faq_id := 1, question := "How do I reset my password?",
    answer := "Go to Settings > Security.", similarity := 7499/10000,
    source := "faq", matched_text := none }

/-- A candidate of similarity 0, below every positive threshold. -/
def mZero : RetrievalService.Match :=
  { faq_id := 2, question := "Q2", answer := "A2", similarity := 0,
    source := "faq", matched_text := none }

/-- An environment whose router classifies off the General label and
whose search returns the single low-similarity candidate. -/
def envLow : QAEnv := ⟨.ok "IT", .ok [], .ok [mLow], .ok "", .ok ""⟩

/-- An environment classifying General. -/
def envGeneral : QAEnv := ⟨.ok "General", .ok [], .ok [], .ok "", .ok ""⟩

/-- An environment whose router raises. -/
def envRouterFail : QAEnv := ⟨.error (), .ok [], .ok [], .ok "", .ok ""⟩

/-- An environment whose variant generation raises. -/
def envVariantsFail : QAEnv := ⟨.ok "IT", .error (), .ok [], .ok "", .ok ""⟩

/-- An environment whose retrieval raises. -/
def envSearchFail : QAEnv := ⟨.ok "IT", .ok [], .error (), .ok "", .ok ""⟩

/-- An environment where retrieval succeeds with one candidate and both
answer chains raise. -/
def envSynthFail : QAEnv := ⟨.ok "IT", .ok [], .ok [mZero], .error (), .error ()⟩

end QuestionAnsweringService

/-! ## The claims on the answering workflow -/

/-- C2. With threshold 0.75 and a non-empty match list, the response's
confidence is the first match's similarity, and the decision routes to
the stored answer exactly when that similarity reaches 0.75, to the
synthesized answer below it; with no matches the confidence is 0 and the
source is the synthesized one. -/
theorem threshold_routing (env : QuestionAnsweringService.QAEnv) (q : String)
    (flag : Bool) (nv : Nat) (elapsed : ℚ) (cat : String)
    (variants : List String) (ms : List RetrievalService.Match)
    (hr : env.routerResult = .ok cat)
    (hg : QuestionAnsweringService.hasInfix "general".data (lowerStr cat).data = false)
    (hv : (if flag then env.variantsResult else Except.ok []) = .ok variants)
    (hs : env.searchResult = .ok ms) :
    (ms = [] →
      (QuestionAnsweringService.answer_question env q flag nv (3/4) elapsed).1.confidence = 0 ∧
      (QuestionAnsweringService.answer_question env q flag nv (3/4) elapsed).1.source = "llm") ∧
    ∀ m rest, ms = m :: rest →
      (QuestionAnsweringService.answer_question env q flag nv (3/4) elapsed).1.confidence =
        m.similarity ∧
      ((3:ℚ)/4 ≤ m.similarity →
        (QuestionAnsweringService.answer_question env q flag nv (3/4) elapsed).1.source =
          "database" ∧
        (QuestionAnsweringService.answer_question env q flag nv (3/4) elapsed).1.answer =
          m.answer) ∧
      (m.similarity < 3/4 →
        (QuestionAnsweringService.answer_question env q flag nv (3/4) elapsed).1.source =
          "llm") := by
  rw [QuestionAnsweringService.answer_question_ok env q flag nv (3/4) elapsed cat variants ms
    hr hg hv hs]
  constructor
  · rintro rfl
    exact ⟨rfl, rfl⟩
  · rintro m rest rfl
    refine ⟨rfl, ?_, ?_⟩
    · intro hge
      constructor
      · show (if (3:ℚ)/4 ≤ m.similarity then "database" else "llm") = "database"
        rw [if_pos hge]
      · show (match ([] : List String) with | _ => if (3:ℚ)/4 ≤ m.similarity then m.answer
          else QuestionAnsweringService.generate_llm_answer env (m :: rest)) = m.answer
        rw [if_pos hge]
    · intro hlt
      show (if (3:ℚ)/4 ≤ m.similarity then "database" else "llm") = "llm"
      rw [if_neg (not_le_of_lt hlt)]

/-- C2 witness: a single match of similarity 0.7499 < 0.75 keeps the
confidence at 0.7499 and routes to the synthesized source. -/
theorem threshold_routing_witness :
    ((7499 : ℚ)/10000 < 3/4) ∧
    (QuestionAnsweringService.answer_question QuestionAnsweringService.envLow
      "q" false 3 (3/4) 0).1.confidence = (7499 : ℚ)/10000 ∧
    (QuestionAnsweringService.answer_question QuestionAnsweringService.envLow
      "q" false 3 (3/4) 0).1.source = "llm" := by
  have h := threshold_routing QuestionAnsweringService.envLow "q" false 3 0 "IT" []
    [QuestionAnsweringService.mLow] rfl (by decide) rfl rfl
  have h2 := h.2 QuestionAnsweringService.mLow [] rfl
  refine ⟨by norm_num, h2.1, h2.2.2 ?_⟩
  show (7499 : ℚ)/10000 < 3/4
  norm_num

/-- C3. A question classified with a label containing "general"
case-insensitively short-circuits to the canned refusal: source "llm",
confidence 1, no matched faq, no matches, no generated variants — and the
trace shows the router as the only external step, so variant generation,
embedding and retrieval search are never invoked. -/
theorem general_short_circuit (env : QuestionAnsweringService.QAEnv) (q : String)
    (flag : Bool) (nv : Nat) (th elapsed : ℚ) (cat : String)
    (hr : env.routerResult = .ok cat)
    (hg : QuestionAnsweringService.hasInfix "general".data (lowerStr cat).data = true) :
    (QuestionAnsweringService.answer_question env q flag nv th elapsed).1 =
      { answer := QuestionAnsweringService.default_general_answer, source := "llm",
        confidence := 1, matched_faq := none, all_matches := [],
        generated_variants := none, processing_time_ms := elapsed } ∧
    (QuestionAnsweringService.answer_question env q flag nv th elapsed).2 =
      [QuestionAnsweringService.Step.routerCall] ∧
    QuestionAnsweringService.Step.variantCall ∉
      (QuestionAnsweringService.answer_question env q flag nv th elapsed).2 ∧
    QuestionAnsweringService.Step.searchCall ∉
      (QuestionAnsweringService.answer_question env q flag nv th elapsed).2 := by
  rw [QuestionAnsweringService.answer_question_general env q flag nv th elapsed cat hr hg]
  refine ⟨rfl, rfl, ?_, ?_⟩ <;> simp

/-- C3 witness: the label "General" produces the canned refusal and a
router-only trace. -/
theorem general_short_circuit_witness :
    (QuestionAnsweringService.answer_question QuestionAnsweringService.envGeneral
      "What's the weather today?" true 3 (3/4) 7).1 =
      { answer := QuestionAnsweringService.default_general_answer, source := "llm",
        confidence := 1, matched_faq := none, all_matches := [],
        generated_variants := none, processing_time_ms := 7 } ∧
    (QuestionAnsweringService.answer_question QuestionAnsweringService.envGeneral
      "What's the weather today?" true 3 (3/4) 7).2 =
      [QuestionAnsweringService.Step.routerCall] := by
  have h := general_short_circuit QuestionAnsweringService.envGeneral
    "What's the weather today?" true 3 (3/4) 7 "General" rfl (by decide)
  exact ⟨h.1, h.2.1⟩

/-- C6. Any error raised by the router, the variant generation or the
retrieval (the steps of the workflow able to raise into the top handler)
never propagates: `answer_question` is a total function and each such
error yields the degraded response — source "error", confidence 0, the
fixed apologetic text, with the measured elapsed time still recorded. -/
theorem workflow_error_degrades (env : QuestionAnsweringService.QAEnv) (q : String)
    (flag : Bool) (nv : Nat) (th elapsed : ℚ) :
    (env.routerResult = .error () →
      (QuestionAnsweringService.answer_question env q flag nv th elapsed).1 =
        QuestionAnsweringService.error_response elapsed) ∧
    (∀ cat, env.routerResult = .ok cat →
      QuestionAnsweringService.hasInfix "general".data (lowerStr cat).data = false →
      env.variantsResult = .error () →
      (QuestionAnsweringService.answer_question env q true nv th elapsed).1 =
        QuestionAnsweringService.error_response elapsed) ∧
    (∀ cat variants, env.routerResult = .ok cat →
      QuestionAnsweringService.hasInfix "general".data (lowerStr cat).data = false →
      (if flag then env.variantsResult else Except.ok []) = .ok variants →
      env.searchResult = .error () →
      (QuestionAnsweringService.answer_question env q flag nv th elapsed).1 =
        QuestionAnsweringService.error_response elapsed) ∧
    (QuestionAnsweringService.error_response elapsed).source = "error" ∧
    (QuestionAnsweringService.error_response elapsed).confidence = 0 ∧
    (QuestionAnsweringService.error_response elapsed).answer =
      QuestionAnsweringService.error_answer ∧
    (QuestionAnsweringService.error_response elapsed).processing_time_ms = elapsed := by
  refine ⟨?_, ?_, ?_, rfl, rfl, rfl, rfl⟩
  · intro hr
    rw [QuestionAnsweringService.answer_question_router_err env q flag nv th elapsed hr]
  · intro cat hr hg hv
    rw [QuestionAnsweringService.answer_question_variants_err env q nv th elapsed cat hr hg hv]
  · intro cat variants hr hg hv hs
    rw [QuestionAnsweringService.answer_question_search_err env q flag nv th elapsed cat
      variants hr hg hv hs]

/-- C9 counterexample: when the classifier raises, the workflow does not
continue through variant generation and retrieval — the trace holds only
the router call and the response is the degraded error response, not a
continuation of the pipeline. -/
theorem classifier_fail_cex :
    (QuestionAnsweringService.answer_question QuestionAnsweringService.envRouterFail
      "q" true 3 1 5).1.source = "error" ∧
    (QuestionAnsweringService.answer_question QuestionAnsweringService.envRouterFail
      "q" true 3 1 5).2 = [QuestionAnsweringService.Step.routerCall] ∧
    QuestionAnsweringService.Step.variantCall ∉
      (QuestionAnsweringService.answer_question QuestionAnsweringService.envRouterFail
        "q" true 3 1 5).2 ∧
    QuestionAnsweringService.Step.searchCall ∉
      (QuestionAnsweringService.answer_question QuestionAnsweringService.envRouterFail
        "q" true 3 1 5).2 ∧
    (QuestionAnsweringService.answer_question QuestionAnsweringService.envRouterFail
      "q" true 3 1 5).1 = QuestionAnsweringService.error_response 5 := by
  refine ⟨by decide, by decide, by decide, by decide, by decide⟩

/-- C9 (amended). A raised classification error is caught by the
top-level handler: the workflow returns the degraded error response
immediately, with no variant generation, retrieval or decision run. -/
theorem classifier_fail_degrades (env : QuestionAnsweringService.QAEnv) (q : String)
    (flag : Bool) (nv : Nat) (th elapsed : ℚ)
    (hr : env.routerResult = .error ()) :
    QuestionAnsweringService.answer_question env q flag nv th elapsed =
      (QuestionAnsweringService.error_response elapsed,
       [QuestionAnsweringService.Step.routerCall]) :=
  QuestionAnsweringService.answer_question_router_err env q flag nv th elapsed hr

/-- C9 witness: the amended behaviour at a concrete failing router. -/
theorem classifier_fail_degrades_witness :
    QuestionAnsweringService.answer_question QuestionAnsweringService.envRouterFail
      "q" true 3 1 5 =
      (QuestionAnsweringService.error_response 5,
       [QuestionAnsweringService.Step.routerCall]) :=
  classifier_fail_degrades QuestionAnsweringService.envRouterFail "q" true 3 1 5 rfl

/-- C10. When retrieval succeeds with a best match below the threshold
and the synthesis chains raise, the failure is absorbed inside the
synthesis step: the response's source stays "llm" (not "error"), its
answer is the fixed fallback apology, its confidence keeps the best
match's similarity and all matches stay populated. -/
theorem synthesis_fail_keeps_llm_source (env : QuestionAnsweringService.QAEnv)
    (q : String) (flag : Bool) (nv : Nat) (th elapsed : ℚ) (cat : String)
    (variants : List String) (m : RetrievalService.Match)
    (rest : List RetrievalService.Match)
    (hr : env.routerResult = .ok cat)
    (hg : QuestionAnsweringService.hasInfix "general".data (lowerStr cat).data = false)
    (hv : (if flag then env.variantsResult else Except.ok []) = .ok variants)
    (hs : env.searchResult = .ok (m :: rest))
    (hrag : env.ragResult = .error ()) (hgen : env.generalResult = .error ())
    (hlt : m.similarity < th) :
    (QuestionAnsweringService.answer_question env q flag nv th elapsed).1.source = "llm" ∧
    (QuestionAnsweringService.answer_question env q flag nv th elapsed).1.answer =
      QuestionAnsweringService.llm_fallback_answer ∧
    (QuestionAnsweringService.answer_question env q flag nv th elapsed).1.confidence =
      m.similarity ∧
    (QuestionAnsweringService.answer_question env q flag nv th elapsed).1.all_matches =
      (m :: rest).map QuestionAnsweringService.build_similar_match := by
  rw [QuestionAnsweringService.answer_question_ok env q flag nv th elapsed cat variants
    (m :: rest) hr hg hv hs]
  have hfall := QuestionAnsweringService.generate_llm_answer_fail env (m :: rest) hrag hgen
  refine ⟨?_, ?_, rfl, rfl⟩
  · show (if th ≤ m.similarity then "database" else "llm") = "llm"
    rw [if_neg (not_le_of_lt hlt)]
  · show (if th ≤ m.similarity then m.answer
      else QuestionAnsweringService.generate_llm_answer env (m :: rest)) =
      QuestionAnsweringService.llm_fallback_answer
    rw [if_neg (not_le_of_lt hlt), hfall]

/-- C10 witness: a concrete run where both chains raise after retrieval
found one candidate of similarity 0 < 0.75. -/
theorem synthesis_fail_keeps_llm_source_witness :
    (QuestionAnsweringService.answer_question QuestionAnsweringService.envSynthFail
      "q" false 3 (3/4) 0).1.source = "llm" ∧
    (QuestionAnsweringService.answer_question QuestionAnsweringService.envSynthFail
      "q" false 3 (3/4) 0).1.answer = QuestionAnsweringService.llm_fallback_answer ∧
    (QuestionAnsweringService.answer_question QuestionAnsweringService.envSynthFail
      "q" false 3 (3/4) 0).1.confidence = 0 := by
  have h := synthesis_fail_keeps_llm_source QuestionAnsweringService.envSynthFail
    "q" false 3 (3/4) 0 "IT" [] QuestionAnsweringService.mZero [] rfl (by decide)
    rfl rfl rfl rfl
    (show QuestionAnsweringService.mZero.similarity < 3/4 by
      norm_num [QuestionAnsweringService.mZero])
  exact ⟨h.1, h.2.1, h.2.2.1⟩
